import Mathlib

/-
Verification of the annotation-scanner subsystem (`scan_annotations.py`).

The development shallowly embeds:
  * the fragment of the Python `ast` node language that the scanner
    classifies (assignments, annotated assignments, function definitions,
    parameters, plus enough expression/statement forms to exercise nesting);
  * the breadth-first traversal of `ast.walk`;
  * the fragment of `astunparse.unparse` that the scanner's
    `_unparse_ast` helper relies on;
  * the token classes `Assignment`, `FunctionParameter`, `FunctionReturn`,
    the per-file result `AnnotationScanResult` with its nine derived
    counters, the group accumulator `AnnotationScanGroupResult`, and the
    driver methods `scan_text`, `scan_files`, `scan_folder`;
  * the key function of `natsort.humansorted` (locale-aware collation is
    modelled as ASCII case folding, numeric runs compare by value).

Position metadata (`lineno` / `end_lineno`, the `line_range` attribute) is
not modelled: no verified property mentions it.  Parsing (`ast.parse`) and
encoding detection (`charset_normalizer`) are external to the repository;
a parseable source text is represented by the `Module` value that
`ast.parse` would return, and a file that fails to parse is represented
by `none`.
-/

namespace ScanAnnotations

/-- Constant values (`ast.Constant`).  String constants are modelled
without escape sequences, which the scanner never introduces. -/
inductive Const
  | intC (n : Int)
  | boolC (b : Bool)
  | strC (s : String)
  | noneC
  | ellipsisC

/-- Binary operators (`ast.Add` etc.), as far as `astunparse`'s `binop`
table is exercised here. -/
inductive Operator
  | add
  | sub
  | mult
  | div

/-- Expressions (`ast.expr`).  The `ctx` and operator child nodes of the
real `ast` are omitted: they are never classified as tokens.  Lambdas
(the only expression form containing `ast.arg` nodes) are outside the
modelled fragment. -/
inductive Expr
  | name (id : String)
  | constant (value : Const)
  | binOp (left : Expr) (op : Operator) (right : Expr)
  | call (func : Expr) (args : List Expr)
  | tuple (elts : List Expr)

/-- A formal parameter (`ast.arg`): its name and optional annotation
expression. -/
structure Arg where
  arg : String
  anno : Option Expr

/-- The `ast.arguments` node.  `posonlyargs`, `defaults` and
`kw_defaults` are omitted from the model; they carry no annotations and
do not change which `ast.arg` nodes the traversal visits. -/
structure Arguments where
  args : List Arg
  vararg : Option Arg
  kwonlyargs : List Arg
  kwarg : Option Arg

/-- Statements (`ast.stmt`).  `annAssign`'s `simple` flag is not
modelled (its only effect in `astunparse` is parenthesising
non-`Name` simple targets).  `type_comment` fields are omitted:
`astunparse` ignores them and so does the scanner. -/
inductive Stmt
  | assign (targets : List Expr) (value : Expr)
  | annAssign (target : Expr) (anno : Expr) (value : Option Expr)
  | functionDef (name : String) (args : Arguments) (body : List Stmt)
      (decoratorList : List Expr) (returns : Option Expr)
  | asyncFunctionDef (name : String) (args : Arguments) (body : List Stmt)
      (decoratorList : List Expr) (returns : Option Expr)
  | exprStmt (value : Expr)
  | ret (value : Option Expr)
  | ifStmt (test : Expr) (body : List Stmt) (orelse : List Stmt)
  | pass

/-- A parsed source file (`ast.Module`). -/
structure Module where
  body : List Stmt

/-- The sum of all node shapes that `ast.walk` can visit. -/
inductive Node
  | mod (m : Module)
  | stmt (s : Stmt)
  | expr (e : Expr)
  | argsN (a : Arguments)
  | argN (a : Arg)

/-- Child nodes contributed by an optional expression field. -/
def optExprChild : Option Expr → List Node
  | some e => [.expr e]
  | none => []

/-- Child nodes contributed by an optional `ast.arg` field. -/
def optArgChild : Option Arg → List Node
  | some a => [.argN a]
  | none => []

/-- The AST-valued children of a node, in field order, as
`ast.iter_child_nodes` yields them (modulo the omitted `ctx`/operator
leaves, which are never tokens). -/
def children : Node → List Node
  | .mod m => m.body.map .stmt
  | .stmt (.assign targets value) => targets.map .expr ++ [.expr value]
  | .stmt (.annAssign target an value) =>
      [.expr target, .expr an] ++ optExprChild value
  | .stmt (.functionDef _ args body decos rets) =>
      .argsN args :: (body.map .stmt ++ decos.map .expr ++ optExprChild rets)
  | .stmt (.asyncFunctionDef _ args body decos rets) =>
      .argsN args :: (body.map .stmt ++ decos.map .expr ++ optExprChild rets)
  | .stmt (.exprStmt e) => [.expr e]
  | .stmt (.ret v) => optExprChild v
  | .stmt (.ifStmt t b o) => .expr t :: (b.map .stmt ++ o.map .stmt)
  | .stmt .pass => []
  | .expr (.name _) => []
  | .expr (.constant _) => []
  | .expr (.binOp l _ r) => [.expr l, .expr r]
  | .expr (.call f args) => .expr f :: args.map .expr
  | .expr (.tuple elts) => elts.map .expr
  | .argsN a =>
      a.args.map .argN ++ optArgChild a.vararg ++ a.kwonlyargs.map .argN ++
        optArgChild a.kwarg
  | .argN a => optExprChild a.anno

mutual

/-- Number of nodes satisfying `p` in the subtree rooted at a statement
(the statement itself included). -/
def cntStmt (p : Node → Bool) : Stmt → Nat
  | .assign targets value =>
      (cond (p (.stmt (.assign targets value))) 1 0) +
        cntExprList p targets + cntExpr p value
  | .annAssign target an value =>
      (cond (p (.stmt (.annAssign target an value))) 1 0) +
        cntExpr p target + cntExpr p an + cntOptExpr p value
  | .functionDef n args body decos rets =>
      (cond (p (.stmt (.functionDef n args body decos rets))) 1 0) +
        cntArguments p args + cntStmtList p body + cntExprList p decos +
        cntOptExpr p rets
  | .asyncFunctionDef n args body decos rets =>
      (cond (p (.stmt (.asyncFunctionDef n args body decos rets))) 1 0) +
        cntArguments p args + cntStmtList p body + cntExprList p decos +
        cntOptExpr p rets
  | .exprStmt e => (cond (p (.stmt (.exprStmt e))) 1 0) + cntExpr p e
  | .ret v => (cond (p (.stmt (.ret v))) 1 0) + cntOptExpr p v
  | .ifStmt t b o =>
      (cond (p (.stmt (.ifStmt t b o))) 1 0) + cntExpr p t +
        cntStmtList p b + cntStmtList p o
  | .pass => cond (p (.stmt .pass)) 1 0

def cntStmtList (p : Node → Bool) : List Stmt → Nat
  | [] => 0
  | s :: rest => cntStmt p s + cntStmtList p rest

/-- Number of nodes satisfying `p` in the subtree rooted at an
expression. -/
def cntExpr (p : Node → Bool) : Expr → Nat
  | .name i => cond (p (.expr (.name i))) 1 0
  | .constant v => cond (p (.expr (.constant v))) 1 0
  | .binOp l o r =>
      (cond (p (.expr (.binOp l o r))) 1 0) + cntExpr p l + cntExpr p r
  | .call f args =>
      (cond (p (.expr (.call f args))) 1 0) + cntExpr p f + cntExprList p args
  | .tuple elts =>
      (cond (p (.expr (.tuple elts))) 1 0) + cntExprList p elts

def cntExprList (p : Node → Bool) : List Expr → Nat
  | [] => 0
  | e :: rest => cntExpr p e + cntExprList p rest

def cntOptExpr (p : Node → Bool) : Option Expr → Nat
  | some e => cntExpr p e
  | none => 0

/-- Number of nodes satisfying `p` in the subtree rooted at an `ast.arg`
node. -/
def cntArg (p : Node → Bool) (a : Arg) : Nat :=
  (cond (p (.argN a)) 1 0) + cntOptExpr p a.anno

def cntArgList (p : Node → Bool) : List Arg → Nat
  | [] => 0
  | a :: rest => cntArg p a + cntArgList p rest

def cntOptArg (p : Node → Bool) : Option Arg → Nat
  | some a => cntArg p a
  | none => 0

/-- Number of nodes satisfying `p` in the subtree rooted at an
`ast.arguments` node. -/
def cntArguments (p : Node → Bool) (a : Arguments) : Nat :=
  (cond (p (.argsN a)) 1 0) + cntArgList p a.args + cntOptArg p a.vararg +
    cntArgList p a.kwonlyargs + cntOptArg p a.kwarg

end

/-- Number of nodes satisfying `p` in the subtree rooted at a node. -/
def cntNode (p : Node → Bool) : Node → Nat
  | .mod m => (cond (p (.mod m)) 1 0) + cntStmtList p m.body
  | .stmt s => cntStmt p s
  | .expr e => cntExpr p e
  | .argsN a => cntArguments p a
  | .argN a => cntArg p a

/-- Total number of nodes in a subtree: the fuel bound for the
breadth-first traversal. -/
def szNode (n : Node) : Nat := cntNode (fun _ => true) n

/-- Total number of nodes below a work list. -/
def sumSizes (todo : List Node) : Nat := (todo.map szNode).sum

/-- One step of `ast.walk`'s loop: pop the queue head, yield it, and
append its children.  The loop of `ast.walk` terminates because every
node is enqueued exactly once; the explicit `fuel` argument realises
the loop in Lean, and `sumSizes todo` fuel is always sufficient
(theorem `walkF_countP` below quantifies over all sufficient fuels). -/
def walkF : Nat → List Node → List Node
  | 0, _ => []
  | _ + 1, [] => []
  | fuel + 1, n :: rest => n :: walkF fuel (rest ++ children n)

/-- The breadth-first traversal `ast.walk`, seeded with a work list. -/
def walk (todo : List Node) : List Node := walkF (sumSizes todo) todo

/-! ### The `astunparse` fragment

`AnnotationItemBase._unparse_ast` calls `astunparse.unparse(node)` and
strips the result.  The printer below reproduces the relevant methods of
`astunparse.Unparser` (`_Name`, `_Constant`, `_BinOp`, `_Call`, `_Tuple`,
`_arg`, `_arguments`, `_Assign`, `_AnnAssign`, `_FunctionDef`,
`_AsyncFunctionDef`, `_Expr`, `_Return`, `_If`, `_Pass`), with the
writer state (`fill` / `enter` / `leave`) made explicit through the
`indent` argument. -/

/-- `repr` of a constant as `_write_constant` / `_Constant` produce it
(`Ellipsis` prints as `...`). -/
def constRepr : Const → String
  | .intC n => toString n
  | .boolC b => cond b "True" "False"
  | .strC s => "'" ++ s ++ "'"
  | .noneC => "None"
  | .ellipsisC => "..."

/-- Operator symbols from `Unparser.binop`. -/
def opSymbol : Operator → String
  | .add => "+"
  | .sub => "-"
  | .mult => "*"
  | .div => "/"

/-- The `fill` writer helper: newline plus four spaces per indent
level, then the text. -/
def fill (indent : Nat) (text : String) : String :=
  "\n" ++ String.join (List.replicate indent "    ") ++ text

mutual

/-- Unparse an expression (`Unparser.dispatch` on expression nodes). -/
def unparseExpr : Expr → String
  | .name i => i
  | .constant v => constRepr v
  | .binOp l o r =>
      "(" ++ unparseExpr l ++ " " ++ opSymbol o ++ " " ++ unparseExpr r ++ ")"
  | .call f args =>
      unparseExpr f ++ "(" ++ String.intercalate ", " (unparseExprList args) ++ ")"
  | .tuple [e] => "(" ++ unparseExpr e ++ ",)"
  | .tuple elts => "(" ++ String.intercalate ", " (unparseExprList elts) ++ ")"

def unparseExprList : List Expr → List String
  | [] => []
  | e :: rest => unparseExpr e :: unparseExprList rest

end

/-- Unparse an `ast.arg` node (`Unparser._arg`): the name, plus `: `
and the annotation when present. -/
def unparseArg (a : Arg) : String :=
  a.arg ++ (match a.anno with
    | some e => ": " ++ unparseExpr e
    | none => "")

/-- Unparse an `ast.arguments` node (`Unparser._arguments`).  The
`first`-flag logic of the original writes `", "` between every two
written groups, which is exactly `String.intercalate ", "` over the
group list. -/
def unparseArguments (a : Arguments) : String :=
  String.intercalate ", "
    (a.args.map unparseArg ++
      (if a.vararg.isSome || !a.kwonlyargs.isEmpty then
        ["*" ++ (match a.vararg with
          | some v => unparseArg v
          | none => "")]
      else []) ++
      a.kwonlyargs.map unparseArg ++
      (match a.kwarg with
        | some k => ["**" ++ unparseArg k]
        | none => []))

/-- Decorator lines of `__FunctionDef_helper`: each decorator on its own
filled line after an `@`. -/
def unparseDecorators (indent : Nat) (decos : List Expr) : String :=
  String.join (decos.map (fun d => fill indent ("@" ++ unparseExpr d)))

/-- Optional `-> annotation-text` suffix of a signature line. -/
def unparseReturnsSuffix : Option Expr → String
  | some r => " -> " ++ unparseExpr r
  | none => ""

mutual

/-- Unparse a statement at an indentation level.  Every statement method
of the `Unparser` begins with `fill`, so the rendered text starts with a
newline; `_unparse_ast` strips it afterwards.  The `functionDef` cases
inline `__FunctionDef_helper`: a leading newline, decorators, the
signature line, `enter` (the colon), and the body one level deeper. -/
def unparseStmt (indent : Nat) : Stmt → String
  | .assign targets value =>
      fill indent
        (String.join ((unparseExprList targets).map (fun t => t ++ " = ")) ++
          unparseExpr value)
  | .annAssign target an value =>
      fill indent
        (unparseExpr target ++ ": " ++ unparseExpr an ++
          (match value with
            | some v => " = " ++ unparseExpr v
            | none => ""))
  | .functionDef n args body decos rets =>
      "\n" ++ unparseDecorators indent decos ++
        fill indent ("def " ++ n ++ "(" ++ unparseArguments args ++ ")") ++
        unparseReturnsSuffix rets ++ ":" ++ unparseStmtList (indent + 1) body
  | .asyncFunctionDef n args body decos rets =>
      "\n" ++ unparseDecorators indent decos ++
        fill indent ("async def " ++ n ++ "(" ++ unparseArguments args ++ ")") ++
        unparseReturnsSuffix rets ++ ":" ++ unparseStmtList (indent + 1) body
  | .exprStmt e => fill indent (unparseExpr e)
  | .ret v =>
      fill indent ("return" ++ (match v with
        | some e => " " ++ unparseExpr e
        | none => ""))
  | .ifStmt t b o =>
      fill indent ("if " ++ unparseExpr t) ++ ":" ++
        unparseStmtList (indent + 1) b ++ unparseOrelse indent o
  | .pass => fill indent "pass"

def unparseStmtList (indent : Nat) : List Stmt → String
  | [] => ""
  | s :: rest => unparseStmt indent s ++ unparseStmtList indent rest

/-- The `elif`-collapsing loop at the end of `Unparser._If`: a sole
nested `if` in the else-branch prints as `elif`, any other non-empty
else-branch prints under an `else:` line. -/
def unparseOrelse (indent : Nat) : List Stmt → String
  | [] => ""
  | [.ifStmt t b o] =>
      fill indent ("elif " ++ unparseExpr t) ++ ":" ++
        unparseStmtList (indent + 1) b ++ unparseOrelse indent o
  | s :: rest =>
      fill indent "else" ++ ":" ++
        unparseStmt (indent + 1) s ++ unparseStmtList (indent + 1) rest

end

/-- Unparse any node, dispatching on its shape. -/
def unparseNode : Node → String
  | .mod m => unparseStmtList 0 m.body
  | .stmt s => unparseStmt 0 s
  | .expr e => unparseExpr e
  | .argsN a => unparseArguments a
  | .argN a => unparseArg a

/-- Python's `str.strip()` on the characters our printer emits (spaces
and newlines). -/
def pyStrip (s : String) : String :=
  String.mk
    (((s.data.dropWhile Char.isWhitespace).reverse.dropWhile
        Char.isWhitespace).reverse)

/-- `AnnotationItemBase._unparse_ast`: unparse, then strip. -/
def unparse_ast (n : Node) : String := pyStrip (unparseNode n)

/-! ### Tokens -/

/-- The `Assignment` token class (attributes of `AnnotationItemBase`
minus the unmodelled `line_range`). -/
structure Assignment where
  is_annotated : Bool
  annotated_text : Option String
  code : String
deriving DecidableEq, Repr

/-- The `FunctionParameter` token class. -/
structure FunctionParameter where
  is_annotated : Bool
  annotated_text : Option String
  code : String
deriving DecidableEq, Repr

/-- The `FunctionReturn` token class. -/
structure FunctionReturn where
  is_annotated : Bool
  annotated_text : Option String
  code : String
deriving DecidableEq, Repr

/-- `Assignment.__init__` fused with the `isinstance` test of
`scan_text` that guards it: `some` exactly on the node shapes
`scan_text` passes to the constructor (`ast.AnnAssign`, `ast.Assign`);
the `TypeError` branch of the constructor is unreachable from
`scan_text`. -/
def assignmentOfNode : Node → Option Assignment
  | .stmt (.annAssign target an value) =>
      some { is_annotated := true
             annotated_text := some (unparse_ast (.expr an))
             code := unparse_ast (.stmt (.annAssign target an value)) }
  | .stmt (.assign targets value) =>
      some { is_annotated := false
             annotated_text := none
             code := unparse_ast (.stmt (.assign targets value)) }
  | _ => none

/-- `FunctionParameter.__init__` fused with the `isinstance ast.arg`
test of `scan_text`. -/
def parameterOfNode : Node → Option FunctionParameter
  | .argN a =>
      some { is_annotated := a.anno.isSome
             annotated_text := a.anno.map (fun e => unparse_ast (.expr e))
             code := unparse_ast (.argN a) }
  | _ => none

/-- The body-elided copy built by `FunctionReturn.__init__`:
`type(node)(name, args, ast.Expr(ast.Constant(...)), decorator_list,
returns, type_comment)`.  Python passes the single `ast.Expr` node as
the body; `astunparse.dispatch` renders a single node exactly as it
renders the one-element list, so the copy is modelled with the
singleton body list. -/
def bodylessCopy : Stmt → Option Stmt
  | .functionDef n args _ decos rets =>
      some (.functionDef n args [.exprStmt (.constant .ellipsisC)] decos rets)
  | .asyncFunctionDef n args _ decos rets =>
      some (.asyncFunctionDef n args [.exprStmt (.constant .ellipsisC)] decos rets)
  | _ => none

/-- `FunctionReturn.__init__` fused with the
`isinstance (ast.FunctionDef, ast.AsyncFunctionDef)` test of
`scan_text`. -/
def returnOfNode : Node → Option FunctionReturn
  | .stmt (.functionDef n args _body decos rets) =>
      some { is_annotated := rets.isSome
             annotated_text := rets.map (fun e => unparse_ast (.expr e))
             code := unparse_ast (.stmt
               (.functionDef n args [.exprStmt (.constant .ellipsisC)] decos rets)) }
  | .stmt (.asyncFunctionDef n args _body decos rets) =>
      some { is_annotated := rets.isSome
             annotated_text := rets.map (fun e => unparse_ast (.expr e))
             code := unparse_ast (.stmt
               (.asyncFunctionDef n args [.exprStmt (.constant .ellipsisC)] decos rets)) }
  | _ => none

/-! ### Statistics -/

/-- The nine counters of `AnnotationScanStatsBase`, with the source's
field names.  All values arising in the program are counts, so the
fields are `Nat`; Python's unbounded-integer addition and subtraction
agree with the `Nat` operations at every use site below (subtraction
only ever subtracts a filtered count from the length it is bounded
by). -/
structure AnnotationScanStatsBase where
  total_assign_count : Nat
  annotated_assign_count : Nat
  unannotated_assign_count : Nat
  total_func_params_count : Nat
  annotated_func_params_count : Nat
  unannotated_func_params_count : Nat
  total_func_returns_count : Nat
  annotated_func_returns_count : Nat
  unannotated_func_returns_count : Nat
deriving DecidableEq, Repr

/-- `AnnotationScanResult._count_annotated`:
`len([True for item in anno_items if item.is_annotated])`. -/
def count_annotated {α : Type} (isAnn : α → Bool) (anno_items : List α) : Nat :=
  (anno_items.filter isAnn).length

/-- The nine counters computed by
`AnnotationScanResult._init_compute_stats` from the three token
lists. -/
def computeStats (assignments : List Assignment)
    (func_params : List FunctionParameter)
    (func_returns : List FunctionReturn) : AnnotationScanStatsBase :=
  { total_assign_count := assignments.length
    annotated_assign_count := count_annotated (fun t => t.is_annotated) assignments
    unannotated_assign_count :=
      assignments.length - count_annotated (fun t => t.is_annotated) assignments
    total_func_params_count := func_params.length
    annotated_func_params_count := count_annotated (fun t => t.is_annotated) func_params
    unannotated_func_params_count :=
      func_params.length - count_annotated (fun t => t.is_annotated) func_params
    total_func_returns_count := func_returns.length
    annotated_func_returns_count := count_annotated (fun t => t.is_annotated) func_returns
    unannotated_func_returns_count :=
      func_returns.length - count_annotated (fun t => t.is_annotated) func_returns }

/-- `AnnotationScanResult`: the three token lists of
`AnnotationScanResultBase` plus the stats record the constructor
computes (Python flattens the stats fields into the same object by
inheritance; here they sit in the `stats` field). -/
structure AnnotationScanResult where
  assignments : List Assignment
  func_params : List FunctionParameter
  func_returns : List FunctionReturn
  stats : AnnotationScanStatsBase
deriving DecidableEq, Repr

/-- The `AnnotationScanResult` constructor: store the lists, then
`_init_compute_stats`. -/
def mkAnnotationScanResult (assignments : List Assignment)
    (func_params : List FunctionParameter)
    (func_returns : List FunctionReturn) : AnnotationScanResult :=
  { assignments := assignments
    func_params := func_params
    func_returns := func_returns
    stats := computeStats assignments func_params func_returns }

/-! ### The scanner -/

/-- `AnnotationScanner.scan_text` applied to an already-parsed tree
(`ast.parse` is the external parser; its failure case is handled by the
scan-files models below).  The source appends to the three lists inside
a single loop over `ast.walk(tree)` guarded by three independent
`isinstance` tests; since no node shape satisfies two of the tests,
that is the same as three `filterMap`s over the traversal. -/
def scan_text (m : Module) : AnnotationScanResult :=
  let nodes := walk [.mod m]
  mkAnnotationScanResult (nodes.filterMap assignmentOfNode)
    (nodes.filterMap parameterOfNode) (nodes.filterMap returnOfNode)

/-! ### Group aggregation -/

/-- The `AnnotationScanGroupResult()` constructor:
`AnnotationScanStatsBase.__init__(self, *([0] * 9))`. -/
def groupInit : AnnotationScanStatsBase :=
  { total_assign_count := 0
    annotated_assign_count := 0
    unannotated_assign_count := 0
    total_func_params_count := 0
    annotated_func_params_count := 0
    unannotated_func_params_count := 0
    total_func_returns_count := 0
    annotated_func_returns_count := 0
    unannotated_func_returns_count := 0 }

/-- The counter arithmetic of `AnnotationScanGroupResult._add_result`:
for every stats field, `setattr(self, f, getattr(self, f) +
getattr(result, f))`.  Mutation of `self` is modelled separately
(`groupAddObj` below); this is the value the mutated object holds
afterwards. -/
def groupAdd (a b : AnnotationScanStatsBase) : AnnotationScanStatsBase :=
  { total_assign_count := a.total_assign_count + b.total_assign_count
    annotated_assign_count := a.annotated_assign_count + b.annotated_assign_count
    unannotated_assign_count := a.unannotated_assign_count + b.unannotated_assign_count
    total_func_params_count := a.total_func_params_count + b.total_func_params_count
    annotated_func_params_count :=
      a.annotated_func_params_count + b.annotated_func_params_count
    unannotated_func_params_count :=
      a.unannotated_func_params_count + b.unannotated_func_params_count
    total_func_returns_count := a.total_func_returns_count + b.total_func_returns_count
    annotated_func_returns_count :=
      a.annotated_func_returns_count + b.annotated_func_returns_count
    unannotated_func_returns_count :=
      a.unannotated_func_returns_count + b.unannotated_func_returns_count }

/-! ### `scan_files`, value level, with the parse-failure behaviour

A file is a path together with the outcome of `ast.parse` on its
(externally decoded) text: `some tree` for a parseable file, `none` for
one whose text raises `SyntaxError`.  `scan_files` has no handler: the
first failing file terminates the generator; the files before it have
been yielded, the files after it are never scanned.  The model returns
the yielded triples (with the value the shared accumulator holds at
each yield) and `some path` of the aborting file, if any. -/

/-- One `scan_files` run from a given accumulator value. -/
def scanFilesGo (acc : AnnotationScanStatsBase) :
    List (String × Option Module) →
      List (AnnotationScanStatsBase × String × AnnotationScanResult) × Option String
  | [] => ([], none)
  | (path, none) :: _ => ([], some path)
  | (path, some m) :: rest =>
      let file_result := scan_text m
      let acc2 := groupAdd acc file_result.stats
      let next := scanFilesGo acc2 rest
      ((acc2, path, file_result) :: next.1, next.2)

/-- `AnnotationScanner.scan_files`: fold the per-file results into a
fresh `AnnotationScanGroupResult`, yielding after every file. -/
def scan_files (paths : List (String × Option Module)) :
    List (AnnotationScanStatsBase × String × AnnotationScanResult) × Option String :=
  scanFilesGo groupInit paths

/-! ### The heap model of the shared accumulator

`AnnotationScanGroupResult.__add__` mutates `self` and returns `self`,
so `result += file_result` in `scan_files` rebinds `result` to the very
object it started with, and every yielded triple carries a reference to
that one object.  The model makes object identity explicit: a heap of
allocated group objects addressed by index, `__add__` as an in-place
update returning the address it was given, and yields that carry the
address of the accumulator. -/

/-- The heap of allocated `AnnotationScanGroupResult` objects. -/
def Heap := List AnnotationScanStatsBase

/-- Dereference an object address. -/
def heapGet (h : Heap) (r : Nat) : AnnotationScanStatsBase :=
  List.getD h r groupInit

/-- `AnnotationScanGroupResult.__add__`: update the nine counters of
the object at `r` in place and return the same address (`return
self`). -/
def groupAddObj (h : Heap) (r : Nat) (x : AnnotationScanStatsBase) : Heap × Nat :=
  (List.set h r (groupAdd (heapGet h r) x), r)

/-- A yielded triple, with the accumulator passed by reference. -/
structure ScanFilesYield where
  summaryRef : Nat
  path : String
  fileResult : AnnotationScanResult
deriving DecidableEq, Repr

/-- The loop of `scan_files` over parseable files, against the heap:
`result += file_result; yield result, file_path, file_result`. -/
def scanFilesHeapGo (h : Heap) (r : Nat) :
    List (String × Module) → Heap × List ScanFilesYield
  | [] => (h, [])
  | (path, m) :: rest =>
      let file_result := scan_text m
      let step := groupAddObj h r file_result.stats
      let next := scanFilesHeapGo step.1 step.2 rest
      (next.1, ⟨step.2, path, file_result⟩ :: next.2)

/-- `scan_files` against the heap: allocate one fresh group object
(`result = AnnotationScanGroupResult()`), then run the loop.  The final
heap is the state after the generator is exhausted. -/
def scan_filesHeap (files : List (String × Module)) : Heap × List ScanFilesYield :=
  scanFilesHeapGo [groupInit] 0 files

/-! ### Natural sort (`natsort.humansorted`) and `scan_folder`

`humansorted` sorts by a key that splits a string into maximal runs of
digits and non-digits; digit runs compare by numeric value, other runs
by locale-aware, case-insensitive collation, modelled here as
case-folded character comparison.  Keys are compared as Python compares
key tuples: lexicographically, a strict prefix first.  A trailing
string run with no digits after it is marked `⊥`, which orders exactly
like Python's shorter key tuple. -/

/-- A maximal run of digit or of non-digit characters. -/
inductive RawChunk
  | strRun (cs : List Char)
  | numRun (cs : List Char)

/-- Split a character list into maximal alternating runs. -/
def rawChunks (cs : List Char) : List RawChunk :=
  cs.foldr
    (fun c ks =>
      if c.isDigit then
        match ks with
        | .numRun ds :: t => .numRun (c :: ds) :: t
        | _ => .numRun [c] :: ks
      else
        match ks with
        | .strRun s :: t => .strRun (c :: s) :: t
        | _ => .strRun [c] :: ks)
    []

/-- Numeric value of a digit run. -/
def digitsVal (ds : List Char) : Nat :=
  ds.foldl (fun a c => 10 * a + (c.toNat - 48)) 0

/-- The comparison key: alternating (string-run, following numeric run)
pairs, ordered lexicographically with runs of digits compared by
value. -/
def NatKey := List (Lex (List Char × WithBot Nat))

instance : LinearOrder NatKey :=
  inferInstanceAs (LinearOrder (List (Lex (List Char × WithBot Nat))))

/-- Pair up the alternating runs into key entries. -/
def pairChunks : List RawChunk → NatKey
  | [] => []
  | .strRun s :: .numRun d :: rest =>
      toLex (s, (digitsVal d : WithBot Nat)) :: pairChunks rest
  | .strRun s :: rest => toLex (s, (⊥ : WithBot Nat)) :: pairChunks rest
  | .numRun d :: rest =>
      toLex (([] : List Char), (digitsVal d : WithBot Nat)) :: pairChunks rest

/-- Case-folded characters of a string (the model of locale-aware,
case-insensitive collation). -/
def toLowerChars (s : String) : List Char := s.data.map Char.toLower

/-- The `humansorted` key of a path string. -/
def natKey (s : String) : NatKey := pairChunks (rawChunks (toLowerChars s))

/-- The natural-sort ordering on path strings. -/
def natLe (a b : String) : Prop := natKey a ≤ natKey b

instance : DecidableRel natLe :=
  fun a b => inferInstanceAs (Decidable (natKey a ≤ natKey b))

instance : IsTotal String natLe := ⟨fun a b => le_total (natKey a) (natKey b)⟩

instance : IsTrans String natLe := ⟨fun _ _ _ => le_trans⟩

/-- `natsort.humansorted` of a list of values carrying a path string,
compared by the natural-sort key of the path.  Python's `sorted` is a
stable comparison sort; insertion sort with a non-strict order is also
stable. -/
def humansortedBy {α : Type} (f : α → String) (l : List α) : List α :=
  l.insertionSort (fun a b => natKey (f a) ≤ natKey (f b))

/-- `natsort.humansorted` on path strings themselves. -/
def humansorted (l : List String) : List String := humansortedBy id l

/-- `AnnotationScanner.scan_folder`, applied to the list of
`(path, parse outcome)` pairs the glob matched (globbing itself is
filesystem I/O, external to the model): sort the matched paths
naturally, return `None` when nothing matched, otherwise the
`scan_files` run over the sorted paths. -/
def scan_folder (matched : List (String × Option Module)) :
    Option (List (AnnotationScanStatsBase × String × AnnotationScanResult) × Option String) :=
  let file_paths := humansortedBy (fun f => f.1) matched
  if file_paths.length = 0 then none
  else some (scan_files file_paths)

/-! ### Node predicates and concrete sample trees -/

/-- The node shapes `scan_text` turns into `Assignment` tokens:
`isinstance(node, (ast.AnnAssign, ast.Assign))`. -/
def isAssignNode : Node → Bool
  | .stmt (.assign _ _) => true
  | .stmt (.annAssign _ _ _) => true
  | _ => false

/-- The node shapes `scan_text` turns into `FunctionReturn` tokens:
`isinstance(node, (ast.FunctionDef, ast.AsyncFunctionDef))`. -/
def isFuncDefNode : Node → Bool
  | .stmt (.functionDef _ _ _ _ _) => true
  | .stmt (.asyncFunctionDef _ _ _ _ _) => true
  | _ => false

/-- The node shapes `scan_text` turns into `FunctionParameter` tokens:
`isinstance(node, ast.arg)`. -/
def isArgNode : Node → Bool
  | .argN _ => true
  | _ => false

/-- Modelled from the spec's words, for comparison with the code's
classification: a node that "binds one or more names to a value" — a
plain assignment (with its one-or-more targets and a value), or an
annotated assignment that actually carries a value.  An annotated
declaration without a value (`x: int`) binds nothing under this
reading. -/
def bindsNamesToValueSpec : Node → Bool
  | .stmt (.assign targets _) => !targets.isEmpty
  | .stmt (.annAssign _ _ v) => v.isSome
  | _ => false

/-- Empty `ast.arguments`. -/
def noArgs : Arguments := ⟨[], none, [], none⟩

/-- The tree of `b: int = (2 + 2)` (the spec's annotated-assignment
example). -/
def exAnnAssign : Module :=
  ⟨[.annAssign (.name "b") (.name "int")
      (some (.binOp (.constant (.intC 2)) .add (.constant (.intC 2))))]⟩

/-- The tree of `def foo(bar) -> None:` followed by `print(bar + 2)`
(the spec's function example). -/
def exFunc : Module :=
  ⟨[.functionDef "foo" ⟨[⟨"bar", none⟩], none, [], none⟩
      [.exprStmt (.call (.name "print")
        [.binOp (.name "bar") .add (.constant (.intC 2))])]
      [] (some (.constant .noneC))]⟩

/-- The tree of the chained assignment `a = b = 1`. -/
def exChained : Module :=
  ⟨[.assign [.name "a", .name "b"] (.constant (.intC 1))]⟩

/-- The tree of the tuple-unpacking assignment `a, b = (1, 2)`. -/
def exUnpack : Module :=
  ⟨[.assign [.tuple [.name "a", .name "b"]]
      (.tuple [.constant (.intC 1), .constant (.intC 2)])]⟩

/-- The tree of the value-less annotated declaration `x: int`. -/
def exAnnNoValue : Module :=
  ⟨[.annAssign (.name "x") (.name "int") none]⟩

/-- Lift a list of parseable files into `scan_files` input. -/
def liftParsed (files : List (String × Module)) : List (String × Option Module) :=
  files.map (fun f => (f.1, some f.2))

/-- A three-file corpus whose middle file does not parse. -/
def corpusWithBadFile : List (String × Option Module) :=
  [("a.py", some exChained), ("bad.py", none), ("c.py", some exAnnAssign)]

/-! ## Lemmas: the traversal visits every node of the tree exactly once -/

theorem length_filterMap_eq_countP {α β : Type} (f : α → Option β) (l : List α) :
    (l.filterMap f).length = l.countP (fun x => (f x).isSome) := by
  induction l with
  | nil => simp
  | cons a t ih =>
      cases h : f a <;>
        simp [List.filterMap_cons, h, List.countP_cons, ih]

theorem cntStmtList_eq (p : Node → Bool) (l : List Stmt) :
    cntStmtList p l = ((l.map Node.stmt).map (cntNode p)).sum := by
  induction l with
  | nil => simp [cntStmtList]
  | cons s t ih => simp [cntStmtList, ih, cntNode]

theorem cntExprList_eq (p : Node → Bool) (l : List Expr) :
    cntExprList p l = ((l.map Node.expr).map (cntNode p)).sum := by
  induction l with
  | nil => simp [cntExprList]
  | cons e t ih => simp [cntExprList, ih, cntNode]

theorem cntOptExpr_eq (p : Node → Bool) (v : Option Expr) :
    cntOptExpr p v = ((optExprChild v).map (cntNode p)).sum := by
  cases v <;> simp [cntOptExpr, optExprChild, cntNode]

theorem cntArgList_eq (p : Node → Bool) (l : List Arg) :
    cntArgList p l = ((l.map Node.argN).map (cntNode p)).sum := by
  induction l with
  | nil => simp [cntArgList]
  | cons a t ih => simp [cntArgList, ih, cntNode]

theorem cntOptArg_eq (p : Node → Bool) (v : Option Arg) :
    cntOptArg p v = ((optArgChild v).map (cntNode p)).sum := by
  cases v <;> simp [cntOptArg, optArgChild, cntNode]

/-- The subtree count decomposes through `children`: a node's count is
its own `p`-bit plus the counts of its children. -/
theorem cntNode_children (p : Node → Bool) (n : Node) :
    cntNode p n = (cond (p n) 1 0) + ((children n).map (cntNode p)).sum := by
  cases n with
  | mod m => simp [cntNode, children, cntStmtList_eq]
  | stmt s =>
      cases s <;>
        simp [cntNode, cntStmt, children, cntStmtList_eq, cntExprList_eq,
          cntOptExpr_eq, cntArgList_eq, cntOptArg_eq, cntArguments, cntArg] <;>
        omega
  | expr e =>
      cases e <;>
        simp [cntNode, cntExpr, children, cntExprList_eq] <;> omega
  | argsN a =>
      simp [cntNode, cntArguments, children, cntArgList_eq, cntOptArg_eq]
      omega
  | argN a => simp [cntNode, cntArg, children, cntOptExpr_eq]

theorem szNode_children (n : Node) : szNode n = 1 + sumSizes (children n) := by
  have h := cntNode_children (fun _ => true) n
  simpa [szNode, sumSizes] using h

theorem szNode_pos (n : Node) : 1 ≤ szNode n := by
  rw [szNode_children]; omega

theorem sumSizes_append (l₁ l₂ : List Node) :
    sumSizes (l₁ ++ l₂) = sumSizes l₁ + sumSizes l₂ := by
  simp [sumSizes]

/-- Breadth-first traversal with sufficient fuel visits, for any
predicate, exactly the nodes of the subtrees on the work list. -/
theorem walkF_countP (p : Node → Bool) :
    ∀ fuel todo, sumSizes todo ≤ fuel →
      (walkF fuel todo).countP p = (todo.map (cntNode p)).sum := by
  intro fuel
  induction fuel with
  | zero =>
      intro todo h
      cases todo with
      | nil => simp [walkF]
      | cons n rest =>
          exfalso
          have h1 := szNode_pos n
          have h2 : sumSizes (n :: rest) = szNode n + sumSizes rest := by
            simp [sumSizes]
          omega
  | succ fuel ih =>
      intro todo h
      cases todo with
      | nil => simp [walkF]
      | cons n rest =>
          have hsz : sumSizes (n :: rest) = szNode n + sumSizes rest := by
            simp [sumSizes]
          have hfuel : sumSizes (rest ++ children n) ≤ fuel := by
            have := szNode_children n
            rw [sumSizes_append]
            omega
          simp only [walkF, List.countP_cons, List.map_cons, List.sum_cons]
          rw [ih _ hfuel, cntNode_children p n, List.map_append, List.sum_append]
          cases hp : p n <;> simp [hp] <;> omega

/-- `ast.walk` visits exactly the nodes of the tree. -/
theorem walk_countP (p : Node → Bool) (todo : List Node) :
    (walk todo).countP p = (todo.map (cntNode p)).sum :=
  walkF_countP p _ todo le_rfl

theorem assignmentOfNode_isSome (n : Node) :
    (assignmentOfNode n).isSome = isAssignNode n := by
  cases n with
  | stmt s => cases s <;> rfl
  | mod m => rfl
  | expr e => rfl
  | argsN a => rfl
  | argN a => rfl

theorem parameterOfNode_isSome (n : Node) :
    (parameterOfNode n).isSome = isArgNode n := by
  cases n with
  | stmt s => cases s <;> rfl
  | mod m => rfl
  | expr e => rfl
  | argsN a => rfl
  | argN a => rfl

theorem returnOfNode_isSome (n : Node) :
    (returnOfNode n).isSome = isFuncDefNode n := by
  cases n with
  | stmt s => cases s <;> rfl
  | mod m => rfl
  | expr e => rfl
  | argsN a => rfl
  | argN a => rfl

/-- `scan_text` produces exactly one `Assignment` token per
assignment-statement node of the tree. -/
theorem scan_text_assignments_length (m : Module) :
    (scan_text m).assignments.length = cntNode isAssignNode (.mod m) := by
  show ((walk [.mod m]).filterMap assignmentOfNode).length = _
  rw [length_filterMap_eq_countP]
  have : (fun n => (assignmentOfNode n).isSome) = isAssignNode :=
    funext assignmentOfNode_isSome
  rw [this, walk_countP]
  simp

/-- `scan_text` produces exactly one `FunctionParameter` token per
`ast.arg` node of the tree. -/
theorem scan_text_params_length (m : Module) :
    (scan_text m).func_params.length = cntNode isArgNode (.mod m) := by
  show ((walk [.mod m]).filterMap parameterOfNode).length = _
  rw [length_filterMap_eq_countP]
  have : (fun n => (parameterOfNode n).isSome) = isArgNode :=
    funext parameterOfNode_isSome
  rw [this, walk_countP]
  simp

/-- `scan_text` produces exactly one `FunctionReturn` token per
function-definition node of the tree. -/
theorem scan_text_returns_length (m : Module) :
    (scan_text m).func_returns.length = cntNode isFuncDefNode (.mod m) := by
  show ((walk [.mod m]).filterMap returnOfNode).length = _
  rw [length_filterMap_eq_countP]
  have : (fun n => (returnOfNode n).isSome) = isFuncDefNode :=
    funext returnOfNode_isSome
  rw [this, walk_countP]
  simp

/-! ## Lemmas: group aggregation -/

theorem groupAdd_zero_left (x : AnnotationScanStatsBase) :
    groupAdd groupInit x = x := by
  cases x; simp [groupAdd, groupInit]

theorem groupAdd_comm (a b : AnnotationScanStatsBase) :
    groupAdd a b = groupAdd b a := by
  simp only [groupAdd, AnnotationScanStatsBase.mk.injEq]
  omega

theorem groupAdd_assoc (a b c : AnnotationScanStatsBase) :
    groupAdd (groupAdd a b) c = groupAdd a (groupAdd b c) := by
  simp only [groupAdd, AnnotationScanStatsBase.mk.injEq]
  omega

theorem foldl_groupAdd_hom (l : List AnnotationScanStatsBase)
    (a : AnnotationScanStatsBase) :
    l.foldl groupAdd a = groupAdd a (l.foldl groupAdd groupInit) := by
  induction l generalizing a with
  | nil => simp [groupAdd_comm a groupInit, groupAdd_zero_left]
  | cons x t ih =>
      simp only [List.foldl_cons]
      rw [ih (groupAdd a x), ih (groupAdd groupInit x), groupAdd_zero_left,
        groupAdd_assoc]

theorem foldl_groupAdd_perm {l₁ l₂ : List AnnotationScanStatsBase}
    (h : l₁.Perm l₂) :
    ∀ a, l₁.foldl groupAdd a = l₂.foldl groupAdd a := by
  induction h with
  | nil => intro a; rfl
  | cons x _ ih => intro a; simp only [List.foldl_cons]; exact ih _
  | swap x y t =>
      intro a
      simp only [List.foldl_cons]
      rw [groupAdd_assoc, groupAdd_assoc, groupAdd_comm x y]
  | trans _ _ ih₁ ih₂ => intro a; rw [ih₁ a, ih₂ a]

theorem foldl_groupAdd_flatten (batches : List (List AnnotationScanStatsBase)) :
    (batches.map (fun batch => batch.foldl groupAdd groupInit)).foldl
        groupAdd groupInit =
      batches.flatten.foldl groupAdd groupInit := by
  induction batches with
  | nil => rfl
  | cons b t ih =>
      simp only [List.map_cons, List.foldl_cons, List.flatten_cons]
      rw [groupAdd_zero_left,
        foldl_groupAdd_hom (t.map fun batch => batch.foldl groupAdd groupInit),
        ih, List.foldl_append]
      conv_rhs => rw [foldl_groupAdd_hom t.flatten]

/-! ## Lemmas: scan_files runs -/

/-- Over a list of parseable files, `scan_files` yields one triple per
file, in input order, and does not abort. -/
theorem scanFilesGo_clean (files : List (String × Module)) :
    ∀ acc, (scanFilesGo acc (liftParsed files)).1.map (fun y => y.2.1) =
        files.map Prod.fst ∧
      (scanFilesGo acc (liftParsed files)).2 = none := by
  induction files with
  | nil => intro acc; exact ⟨rfl, rfl⟩
  | cons f t ih =>
      intro acc
      obtain ⟨h1, h2⟩ := ih (groupAdd acc (scan_text f.2).stats)
      exact ⟨by simpa [liftParsed, scanFilesGo] using h1,
        by simpa [liftParsed, scanFilesGo] using h2⟩

/-- Over any list of files that all parse, `scan_files` yields one
triple per file, in input order, and does not abort. -/
theorem scanFilesGo_allSome :
    ∀ (l : List (String × Option Module)) (acc : AnnotationScanStatsBase),
      (∀ x ∈ l, x.2.isSome) →
        (scanFilesGo acc l).1.map (fun y => y.2.1) = l.map Prod.fst ∧
          (scanFilesGo acc l).2 = none := by
  intro l
  induction l with
  | nil => intro acc _; exact ⟨rfl, rfl⟩
  | cons x t ih =>
      intro acc hall
      have hx : x.2.isSome := hall x (List.mem_cons_self x t)
      obtain ⟨m, hm⟩ := Option.isSome_iff_exists.mp hx
      obtain ⟨p, q⟩ := x
      simp only at hm
      subst hm
      obtain ⟨h1, h2⟩ :=
        ih (groupAdd acc (scan_text m).stats)
          (fun y hy => hall y (List.mem_cons_of_mem _ hy))
      exact ⟨by simpa [scanFilesGo] using h1, by simpa [scanFilesGo] using h2⟩

/-- A parse failure terminates the `scan_files` generator: the files
before it are yielded, the generator then aborts with the error, and
the files after it are never reached. -/
theorem scanFilesGo_abort (pre : List (String × Module)) :
    ∀ acc (bad : String) (rest : List (String × Option Module)),
      scanFilesGo acc (liftParsed pre ++ (bad, none) :: rest) =
        ((scanFilesGo acc (liftParsed pre)).1, some bad) := by
  induction pre with
  | nil => intro acc bad rest; rfl
  | cons f t ih =>
      intro acc bad rest
      rw [show liftParsed (f :: t) = (f.1, some f.2) :: liftParsed t from rfl,
        List.cons_append]
      simp only [scanFilesGo]
      rw [ih (groupAdd acc (scan_text f.2).stats) bad rest]

/-- The heap run of `scan_files`: the single allocated accumulator
object is threaded through unchanged, every yield references it, and
the final heap holds the fold of all per-file stats. -/
theorem scanFilesHeapGo_spec (files : List (String × Module)) :
    ∀ x, scanFilesHeapGo [x] 0 files =
      ([(files.map (fun f => (scan_text f.2).stats)).foldl groupAdd x],
        files.map (fun f => (⟨0, f.1, scan_text f.2⟩ : ScanFilesYield))) := by
  induction files with
  | nil => intro x; rfl
  | cons f t ih =>
      intro x
      simp only [scanFilesHeapGo]
      rw [show groupAddObj [x] 0 (scan_text f.2).stats
            = ([groupAdd x (scan_text f.2).stats], 0) from rfl]
      rw [ih (groupAdd x (scan_text f.2).stats)]
      simp

/-! ## Lemmas: natural sort -/

theorem humansortedBy_sorted {α : Type} (f : α → String) (l : List α) :
    (humansortedBy f l).Sorted (fun a b => natKey (f a) ≤ natKey (f b)) := by
  have : IsTotal α (fun a b => natKey (f a) ≤ natKey (f b)) :=
    ⟨fun a b => le_total _ _⟩
  have : IsTrans α (fun a b => natKey (f a) ≤ natKey (f b)) :=
    ⟨fun _ _ _ => le_trans⟩
  exact List.sorted_insertionSort _ l

theorem humansortedBy_perm {α : Type} (f : α → String) (l : List α) :
    (humansortedBy f l).Perm l :=
  List.perm_insertionSort _ l

theorem humansortedBy_length {α : Type} (f : α → String) (l : List α) :
    (humansortedBy f l).length = l.length :=
  (humansortedBy_perm f l).length_eq

/-! ## Lemmas: per-token annotation invariant -/

theorem assignmentOfNode_invariant (n : Node) (t : Assignment)
    (h : assignmentOfNode n = some t) :
    (t.is_annotated = false → t.annotated_text = none) ∧
      (t.is_annotated = true → t.annotated_text ≠ none) := by
  cases n with
  | stmt s =>
      cases s with
      | assign targets value =>
          cases Option.some.inj h
          exact ⟨fun _ => rfl, fun hc => Bool.noConfusion hc⟩
      | annAssign target an value =>
          cases Option.some.inj h
          exact ⟨fun hc => Bool.noConfusion hc, fun _ => by simp⟩
      | functionDef n args body decos rets => exact Option.noConfusion h
      | asyncFunctionDef n args body decos rets => exact Option.noConfusion h
      | exprStmt e => exact Option.noConfusion h
      | ret v => exact Option.noConfusion h
      | ifStmt a b c => exact Option.noConfusion h
      | pass => exact Option.noConfusion h
  | mod m => exact Option.noConfusion h
  | expr e => exact Option.noConfusion h
  | argsN a => exact Option.noConfusion h
  | argN a => exact Option.noConfusion h

theorem parameterOfNode_invariant (n : Node) (t : FunctionParameter)
    (h : parameterOfNode n = some t) :
    (t.is_annotated = false → t.annotated_text = none) ∧
      (t.is_annotated = true → t.annotated_text ≠ none) := by
  cases n with
  | argN a =>
      cases Option.some.inj h
      cases ha : a.anno with
      | none => simp [ha]
      | some e => simp [ha]
  | mod m => exact Option.noConfusion h
  | stmt s => cases s <;> exact Option.noConfusion h
  | expr e => exact Option.noConfusion h
  | argsN a => exact Option.noConfusion h

theorem returnOfNode_invariant (n : Node) (t : FunctionReturn)
    (h : returnOfNode n = some t) :
    (t.is_annotated = false → t.annotated_text = none) ∧
      (t.is_annotated = true → t.annotated_text ≠ none) := by
  cases n with
  | stmt s =>
      cases s with
      | functionDef n args body decos rets =>
          cases Option.some.inj h
          cases rets with
          | none => simp
          | some r => simp
      | asyncFunctionDef n args body decos rets =>
          cases Option.some.inj h
          cases rets with
          | none => simp
          | some r => simp
      | assign targets value => exact Option.noConfusion h
      | annAssign target an value => exact Option.noConfusion h
      | exprStmt e => exact Option.noConfusion h
      | ret v => exact Option.noConfusion h
      | ifStmt a b c => exact Option.noConfusion h
      | pass => exact Option.noConfusion h
  | mod m => exact Option.noConfusion h
  | expr e => exact Option.noConfusion h
  | argsN a => exact Option.noConfusion h
  | argN a => exact Option.noConfusion h

/-! ## Claims -/

/-- C1: the group-result combine operation is a commutative monoid on
the nine counters: a freshly constructed `AnnotationScanGroupResult`
has all nine counters zero, combining it with any stats record `x`
yields `x`'s counters unchanged, combining is point-wise integer
addition, and for every multiset of per-file results and every
partition of it into batches, folding per-batch sums equals folding
all files individually, for every counter. -/
theorem C1_group_combine_commutative_monoid :
    (groupInit = ⟨0, 0, 0, 0, 0, 0, 0, 0, 0⟩) ∧
    (∀ x, groupAdd groupInit x = x) ∧
    (∀ a b : AnnotationScanStatsBase,
      groupAdd a b =
        ⟨a.total_assign_count + b.total_assign_count,
          a.annotated_assign_count + b.annotated_assign_count,
          a.unannotated_assign_count + b.unannotated_assign_count,
          a.total_func_params_count + b.total_func_params_count,
          a.annotated_func_params_count + b.annotated_func_params_count,
          a.unannotated_func_params_count + b.unannotated_func_params_count,
          a.total_func_returns_count + b.total_func_returns_count,
          a.annotated_func_returns_count + b.annotated_func_returns_count,
          a.unannotated_func_returns_count + b.unannotated_func_returns_count⟩) ∧
    (∀ a b, groupAdd a b = groupAdd b a) ∧
    (∀ a b c, groupAdd (groupAdd a b) c = groupAdd a (groupAdd b c)) ∧
    (∀ (batches : List (List AnnotationScanStatsBase))
       (files : List AnnotationScanStatsBase),
      batches.flatten.Perm files →
        (batches.map (fun batch => batch.foldl groupAdd groupInit)).foldl
            groupAdd groupInit =
          files.foldl groupAdd groupInit) := by
  refine ⟨rfl, groupAdd_zero_left, fun a b => rfl, groupAdd_comm,
    groupAdd_assoc, ?_⟩
  intro batches files h
  rw [foldl_groupAdd_flatten]
  exact foldl_groupAdd_perm h groupInit

/-- Witness for C1 at a concrete partition: two singleton batches,
folded against the individual files in swapped order. -/
theorem C1_group_combine_commutative_monoid_witness :
    ([[(⟨1, 1, 0, 2, 1, 1, 3, 2, 1⟩ : AnnotationScanStatsBase)],
        [(⟨5, 0, 0, 1, 0, 1, 2, 2, 0⟩ : AnnotationScanStatsBase)]].map
          (fun batch => batch.foldl groupAdd groupInit)).foldl
        groupAdd groupInit =
      [(⟨5, 0, 0, 1, 0, 1, 2, 2, 0⟩ : AnnotationScanStatsBase),
        (⟨1, 1, 0, 2, 1, 1, 3, 2, 1⟩ : AnnotationScanStatsBase)].foldl
          groupAdd groupInit :=
  C1_group_combine_commutative_monoid.2.2.2.2.2
    [[⟨1, 1, 0, 2, 1, 1, 3, 2, 1⟩], [⟨5, 0, 0, 1, 0, 1, 2, 2, 0⟩]]
    [⟨5, 0, 0, 1, 0, 1, 2, 2, 0⟩, ⟨1, 1, 0, 2, 1, 1, 3, 2, 1⟩]
    (List.Perm.swap _ _ _)

/-- C3: for every parseable input (represented by its parse tree), the
`AnnotationScanResult` of `scan_text` satisfies, for each category:
the total counter is the token-list length, the annotated counter is
the number of tokens with `is_annotated` true, and annotated plus
unannotated equals total. -/
theorem C3_stats_consistency (m : Module) :
    ((scan_text m).stats.total_assign_count = (scan_text m).assignments.length ∧
      (scan_text m).stats.annotated_assign_count =
        ((scan_text m).assignments.filter (fun t => t.is_annotated)).length ∧
      (scan_text m).stats.annotated_assign_count +
          (scan_text m).stats.unannotated_assign_count =
        (scan_text m).stats.total_assign_count) ∧
    ((scan_text m).stats.total_func_params_count =
        (scan_text m).func_params.length ∧
      (scan_text m).stats.annotated_func_params_count =
        ((scan_text m).func_params.filter (fun t => t.is_annotated)).length ∧
      (scan_text m).stats.annotated_func_params_count +
          (scan_text m).stats.unannotated_func_params_count =
        (scan_text m).stats.total_func_params_count) ∧
    ((scan_text m).stats.total_func_returns_count =
        (scan_text m).func_returns.length ∧
      (scan_text m).stats.annotated_func_returns_count =
        ((scan_text m).func_returns.filter (fun t => t.is_annotated)).length ∧
      (scan_text m).stats.annotated_func_returns_count +
          (scan_text m).stats.unannotated_func_returns_count =
        (scan_text m).stats.total_func_returns_count) := by
  refine ⟨⟨rfl, rfl, ?_⟩, ⟨rfl, rfl, ?_⟩, ⟨rfl, rfl, ?_⟩⟩
  · have h := List.length_filter_le (fun t => t.is_annotated)
      (scan_text m).assignments
    show count_annotated (fun t => t.is_annotated) (scan_text m).assignments +
        ((scan_text m).assignments.length -
          count_annotated (fun t => t.is_annotated) (scan_text m).assignments) =
      (scan_text m).assignments.length
    simp only [count_annotated]
    omega
  · have h := List.length_filter_le (fun t => t.is_annotated)
      (scan_text m).func_params
    show count_annotated (fun t => t.is_annotated) (scan_text m).func_params +
        ((scan_text m).func_params.length -
          count_annotated (fun t => t.is_annotated) (scan_text m).func_params) =
      (scan_text m).func_params.length
    simp only [count_annotated]
    omega
  · have h := List.length_filter_le (fun t => t.is_annotated)
      (scan_text m).func_returns
    show count_annotated (fun t => t.is_annotated) (scan_text m).func_returns +
        ((scan_text m).func_returns.length -
          count_annotated (fun t => t.is_annotated) (scan_text m).func_returns) =
      (scan_text m).func_returns.length
    simp only [count_annotated]
    omega

/-- C4: every function or async-function definition produces exactly
one Return token; its `code` is the unparse of the body-elided copy
(body replaced by the single placeholder statement `...`), hence
independent of the function body; on the spec's example the
reconstructed text is the signature line with the elided body and no
statement of the original body. -/
theorem C4_return_token_body_elided :
    (∀ m, (scan_text m).func_returns.length = cntNode isFuncDefNode (.mod m)) ∧
    (∀ s, (returnOfNode (.stmt s)).map (fun t => t.code) =
      (bodylessCopy s).map (fun s' => unparse_ast (.stmt s'))) ∧
    (∀ n args body body' decos rets,
      returnOfNode (.stmt (.functionDef n args body decos rets)) =
        returnOfNode (.stmt (.functionDef n args body' decos rets))) ∧
    (∀ n args body body' decos rets,
      returnOfNode (.stmt (.asyncFunctionDef n args body decos rets)) =
        returnOfNode (.stmt (.asyncFunctionDef n args body' decos rets))) ∧
    ((scan_text exFunc).func_returns =
      [⟨true, some "None", "def foo(bar) -> None:\n    ..."⟩]) := by
  refine ⟨scan_text_returns_length, ?_, fun _ _ _ _ _ _ => rfl,
    fun _ _ _ _ _ _ => rfl, by decide⟩
  intro s
  cases s <;> rfl

/-- Counterexample to C5 as stated: the value-less annotated
declaration `x: int` binds no name to a value, yet `scan_text`
classifies it as an Assignment token. -/
theorem C5_assignment_without_value_counterexample :
    cntNode bindsNamesToValueSpec (.mod exAnnNoValue) = 0 ∧
    (scan_text exAnnNoValue).assignments = [⟨true, some "int", "x: int"⟩] := by
  constructor
  · rfl
  · decide

/-- C5 (amended): a node is classified as an Assignment token exactly
when it is an assignment-statement node — a plain assignment, or an
annotated assignment with or without a value; annotated assignments
give `is_annotated` true with the unparsed annotation text, plain
assignments give `is_annotated` false; the example `b: int = 2 + 2`
yields one annotated token with text `int`. -/
theorem C5_assignment_classification :
    (∀ target an value, assignmentOfNode (.stmt (.annAssign target an value)) =
      some ⟨true, some (unparse_ast (.expr an)),
        unparse_ast (.stmt (.annAssign target an value))⟩) ∧
    (∀ targets value, assignmentOfNode (.stmt (.assign targets value)) =
      some ⟨false, none, unparse_ast (.stmt (.assign targets value))⟩) ∧
    (∀ n, (assignmentOfNode n).isSome = isAssignNode n) ∧
    ((scan_text exAnnAssign).assignments =
      [⟨true, some "int", "b: int = (2 + 2)"⟩]) :=
  ⟨fun _ _ _ => rfl, fun _ _ => rfl, assignmentOfNode_isSome, by decide⟩

/-- C9: `scan_text` produces exactly one Assignment token per
assignment-statement node, regardless of the number of binding
targets: `a = b = 1` and `a, b = (1, 2)` each yield exactly one
unannotated token. -/
theorem C9_one_assignment_token_per_statement :
    (∀ m, (scan_text m).assignments.length = cntNode isAssignNode (.mod m)) ∧
    ((scan_text exChained).assignments = [⟨false, none, "a = b = 1"⟩]) ∧
    ((scan_text exUnpack).assignments = [⟨false, none, "(a, b) = (1, 2)"⟩]) :=
  ⟨scan_text_assignments_length, by decide, by decide⟩

/-- Counterexample to C2 as stated: in a corpus whose second file does
not parse, `scan_files` yields only the first file and aborts; the
third, perfectly parseable file is never scanned, so the failure is
not caught-and-skipped inside the walker. -/
theorem C2_parse_failure_counterexample :
    (scan_files corpusWithBadFile).2 = some "bad.py" ∧
    (scan_files corpusWithBadFile).1.map (fun y => y.2.1) = ["a.py"] := by
  constructor
  · decide
  · decide

/-- C2 (amended): a file whose text does not parse is fatal for the
whole `scan_files` run, not just for that file: every earlier file is
scanned and yielded (one triple per file, in order, no abort), but the
parse failure then propagates out of the generator and the remaining
files are never scanned.  Per-file isolation happens, if at all, in
the caller, outside `scan_files` and `scan_folder`. -/
theorem C2_parse_failure_aborts_scan (pre : List (String × Module))
    (bad : String) (rest : List (String × Option Module)) :
    (scan_files (liftParsed pre ++ (bad, none) :: rest) =
      ((scan_files (liftParsed pre)).1, some bad)) ∧
    ((scan_files (liftParsed pre)).1.map (fun y => y.2.1) = pre.map Prod.fst) ∧
    ((scan_files (liftParsed pre)).2 = none) := by
  have hclean := scanFilesGo_allSome (liftParsed pre) groupInit
    (by intro x hx
        rcases List.mem_map.mp hx with ⟨g, hg, rfl⟩
        rfl)
  refine ⟨scanFilesGo_abort pre groupInit bad rest, ?_, hclean.2⟩
  have h1 : (scan_files (liftParsed pre)).1.map (fun y => y.2.1) =
      (liftParsed pre).map Prod.fst := hclean.1
  rw [h1]
  simp [liftParsed]

/-- C6: `scan_folder` on a glob that matched no files returns the
explicit `None` signal; when at least one file matched it returns the
`scan_files` run over the naturally sorted matches; and the `None`
signal is distinct from every `some` result, zero-valued summaries
included. -/
theorem C6_empty_corpus_signal :
    (scan_folder [] = none) ∧
    (∀ matched, matched ≠ [] →
      scan_folder matched =
        some (scan_files (humansortedBy (fun f => f.1) matched))) ∧
    (∀ res, scan_folder [] ≠ some res) := by
  refine ⟨rfl, ?_, ?_⟩
  · intro matched h
    have hlen : ¬ (humansortedBy (fun f => f.1) matched).length = 0 := by
      rw [humansortedBy_length]
      intro hc
      exact h (List.length_eq_zero.mp hc)
    simp [scan_folder, hlen]
  · intro res h
    rw [show scan_folder [] = none from rfl] at h
    exact Option.noConfusion h

/-- Witness for C6 at a one-file corpus. -/
theorem C6_empty_corpus_signal_witness :
    scan_folder [("a.py", some exChained)] =
      some (scan_files (humansortedBy (fun f => f.1)
        [("a.py", some exChained)])) :=
  C6_empty_corpus_signal.2.1 _ (List.cons_ne_nil _ _)

/-- C7: `scan_folder` visits the matched paths in natural sort order:
the yielded paths are the naturally sorted matched paths; the sorted
paths are ordered by the natural-sort relation and are a permutation
of the matched paths; the key is case-insensitive (it only depends on
the case-folded characters) and numeric-aware, as on the spec's
example `f2.py, f10.py, f1.py`. -/
theorem C7_natural_sort_order :
    (∀ (files : List (String × Module)) ys err,
      scan_folder (liftParsed files) = some (ys, err) →
        ys.map (fun y => y.2.1) =
          (humansortedBy (fun f => f.1) (liftParsed files)).map Prod.fst) ∧
    (∀ (matched : List (String × Option Module)),
      ((humansortedBy (fun f => f.1) matched).map Prod.fst).Sorted natLe ∧
      ((humansortedBy (fun f => f.1) matched).map Prod.fst).Perm
        (matched.map Prod.fst)) ∧
    (∀ l : List String, (humansorted l).Sorted natLe ∧ (humansorted l).Perm l) ∧
    (∀ s t, toLowerChars s = toLowerChars t → natKey s = natKey t) ∧
    (humansorted ["f2.py", "f10.py", "f1.py"] = ["f1.py", "f2.py", "f10.py"]) := by
  refine ⟨?_, ?_, ?_, ?_, by decide⟩
  · intro files ys err h
    by_cases hlen : (humansortedBy (fun f => f.1) (liftParsed files)).length = 0
    · simp [scan_folder, hlen] at h
    · simp only [scan_folder, if_neg hlen] at h
      have hpair := Option.some.inj h
      have h1 : (scan_files (humansortedBy (fun f => f.1) (liftParsed files))).1 = ys := by
        rw [hpair]
      rw [← h1]
      refine (scanFilesGo_allSome _ groupInit ?_).1
      intro x hx
      have hx2 : x ∈ liftParsed files :=
        (humansortedBy_perm (fun f => f.1) (liftParsed files)).mem_iff.mp hx
      rcases List.mem_map.mp hx2 with ⟨g, hg, rfl⟩
      rfl
  · intro matched
    refine ⟨?_, (humansortedBy_perm _ _).map Prod.fst⟩
    have hs : List.Pairwise (fun a b => natLe a.1 b.1)
        (humansortedBy (fun f => f.1) matched) :=
      humansortedBy_sorted (fun f : String × Option Module => f.1) matched
    exact List.pairwise_map.mpr hs
  · intro l
    exact ⟨humansortedBy_sorted id l, humansortedBy_perm id l⟩
  · intro s t h
    simp [natKey, h]

/-- Witness for C7: the visit-order equation at a concrete three-file
corpus, and key equality for two strings differing only in case. -/
theorem C7_natural_sort_order_witness :
    (((scan_files (humansortedBy (fun f => f.1)
          (liftParsed [("f2.py", exChained), ("f10.py", exAnnAssign),
            ("f1.py", exChained)]))).1).map (fun y => y.2.1) =
      (humansortedBy (fun f => f.1)
        (liftParsed [("f2.py", exChained), ("f10.py", exAnnAssign),
          ("f1.py", exChained)])).map Prod.fst) ∧
    natKey "A1" = natKey "a1" :=
  ⟨C7_natural_sort_order.1
      [("f2.py", exChained), ("f10.py", exAnnAssign), ("f1.py", exChained)]
      _ _ rfl,
    C7_natural_sort_order.2.2.2.1 "A1" "a1" (by decide)⟩

/-- C8: for every token `scan_text` produces, `is_annotated = false`
implies `annotated_text` is absent, and `is_annotated = true` implies
it is present. -/
theorem C8_token_invariant (m : Module) :
    (∀ t ∈ (scan_text m).assignments,
      (t.is_annotated = false → t.annotated_text = none) ∧
      (t.is_annotated = true → t.annotated_text ≠ none)) ∧
    (∀ t ∈ (scan_text m).func_params,
      (t.is_annotated = false → t.annotated_text = none) ∧
      (t.is_annotated = true → t.annotated_text ≠ none)) ∧
    (∀ t ∈ (scan_text m).func_returns,
      (t.is_annotated = false → t.annotated_text = none) ∧
      (t.is_annotated = true → t.annotated_text ≠ none)) := by
  refine ⟨?_, ?_, ?_⟩ <;> intro t ht
  · rcases List.mem_filterMap.mp ht with ⟨n, -, hn⟩
    exact assignmentOfNode_invariant n t hn
  · rcases List.mem_filterMap.mp ht with ⟨n, -, hn⟩
    exact parameterOfNode_invariant n t hn
  · rcases List.mem_filterMap.mp ht with ⟨n, -, hn⟩
    exact returnOfNode_invariant n t hn

/-- Witness for C8 at the concrete annotated token of the spec's
`b: int = 2 + 2` example. -/
theorem C8_token_invariant_witness :
    ((Assignment.mk true (some "int") "b: int = (2 + 2)").is_annotated = false →
      (Assignment.mk true (some "int") "b: int = (2 + 2)").annotated_text = none) ∧
    ((Assignment.mk true (some "int") "b: int = (2 + 2)").is_annotated = true →
      (Assignment.mk true (some "int") "b: int = (2 + 2)").annotated_text ≠ none) :=
  (C8_token_invariant exAnnAssign).1 _ (by decide)

/-- C10: `__add__` mutates its left operand in place and returns that
same object; every triple `scan_files` yields therefore references the
one accumulator object allocated at the start; after a suffix of the
run from any accumulator value, the heap holds the fold of that value
with all scanned stats; and once the generator is exhausted,
dereferencing any yielded summary gives the final corpus total. -/
theorem C10_shared_accumulator_aliasing :
    (∀ h r x, (groupAddObj h r x).2 = r) ∧
    (∀ files x, scanFilesHeapGo [x] 0 files =
      ([(files.map (fun f => (scan_text f.2).stats)).foldl groupAdd x],
        files.map (fun f => (⟨0, f.1, scan_text f.2⟩ : ScanFilesYield)))) ∧
    (∀ files, ∀ y ∈ (scan_filesHeap files).2, y.summaryRef = 0) ∧
    (∀ files, ∀ y ∈ (scan_filesHeap files).2,
      heapGet (scan_filesHeap files).1 y.summaryRef =
        (files.map (fun f => (scan_text f.2).stats)).foldl groupAdd groupInit) := by
  refine ⟨fun _ _ _ => rfl, fun files x => scanFilesHeapGo_spec files x, ?_, ?_⟩
  · intro files y hy
    rw [show scan_filesHeap files = scanFilesHeapGo [groupInit] 0 files from rfl,
      scanFilesHeapGo_spec files groupInit] at hy
    rcases List.mem_map.mp hy with ⟨g, hg, rfl⟩
    rfl
  · intro files y hy
    rw [show scan_filesHeap files = scanFilesHeapGo [groupInit] 0 files from rfl,
      scanFilesHeapGo_spec files groupInit] at hy ⊢
    rcases List.mem_map.mp hy with ⟨g, hg, rfl⟩
    rfl

/-- Witness for C10 at a concrete two-file corpus: the first yield
references accumulator object 0, and dereferencing it after the run
gives the two-file total. -/
theorem C10_shared_accumulator_aliasing_witness :
    heapGet (scan_filesHeap [("a.py", exChained), ("b.py", exAnnAssign)]).1
        (ScanFilesYield.mk 0 "a.py" (scan_text exChained)).summaryRef =
      ([("a.py", exChained), ("b.py", exAnnAssign)].map
        (fun f => (scan_text f.2).stats)).foldl groupAdd groupInit :=
  C10_shared_accumulator_aliasing.2.2.2
    [("a.py", exChained), ("b.py", exAnnAssign)]
    (ScanFilesYield.mk 0 "a.py" (scan_text exChained)) (by decide)

end ScanAnnotations
